import Mathlib

/-!
Verification development for `pdumpf` (`src/pdumpf.py`), a thin orchestrator
that converts a PDF into PPM images by invoking the external `pdftoppm`
tool, parsing its diagnostic (stderr) output for a page count, and
normalizing output filenames.

The Python function `convert_pdf_to_ppms` is embedded shallowly:

* the filesystem and the external tool are modelled by an `Env` record that
  fixes the observable outcomes of every effect the function performs
  (whether the source PDF exists, whether `os.makedirs` succeeds, whether
  the `pdftoppm` binary is found, the process exit code, the captured
  stdout/stderr texts, the files the tool wrote into the output directory,
  and the files that were already there);
* the function becomes a pure Lean function from `Env` to an
  `Except MakedirsError RunRecord`: the `.error` case models the uncaught
  `OSError` that `os.makedirs` (line 24, outside the `try` block) would
  propagate, while `.ok` carries the printed outcome together with an
  effect trace (directory ensured?, number of `subprocess.run` calls,
  final directory content, rename warnings).

Since all paths the code manipulates live inside the output directory,
files are modelled by their names relative to that directory.  `os.rename`
is assumed to succeed when its source exists (as on a healthy filesystem;
a failure would be swallowed by the blanket `except Exception` at line 90).
-/

/-- ASCII decimal digit test, modelling `\d` of the Python regex
`r"Page (\d+)/(\d+)"`.  (Python's `\d` also accepts non-ASCII Unicode
digits; `pdftoppm` progress lines only ever contain ASCII.) -/
def isDigitChar (c : Char) : Bool := '0' ≤ c && c ≤ '9'

/-- Split a character list into its maximal leading digit run and the rest,
modelling the greedy `\d+` of the regex (greediness followed by the literal
`/` resolves to the maximal digit run, since a digit can never match `/`). -/
def takeDigits : List Char → List Char × List Char
  | [] => ([], [])
  | c :: cs =>
    if isDigitChar c then
      let (ds, rest) := takeDigits cs
      (c :: ds, rest)
    else ([], c :: cs)

/-- Numeric value of a digit run, as `int()` applied to `match.group(i)`. -/
def digitsToNat (ds : List Char) : Nat :=
  ds.foldl (fun a c => 10 * a + (c.toNat - ('0').toNat)) 0

/-- Match the regex `Page (\d+)/(\d+)` anchored at the head of the list,
returning `(group 1, group 2)` as numbers. -/
def matchPageAt : List Char → Option (Nat × Nat)
  | 'P' :: 'a' :: 'g' :: 'e' :: ' ' :: rest =>
    let (d1, rest1) := takeDigits rest
    if d1.isEmpty then none
    else
      match rest1 with
      | '/' :: rest2 =>
        let (d2, _) := takeDigits rest2
        if d2.isEmpty then none else some (digitsToNat d1, digitsToNat d2)
      | _ => none
  | _ => none

/-- Model of `re.search(r"Page (\d+)/(\d+)", line)` (line 48): the match at
the leftmost position where one starts, or `none`. -/
def searchPage : List Char → Option (Nat × Nat)
  | [] => none
  | c :: cs =>
    match matchPageAt (c :: cs) with
    | some r => some r
    | none => searchPage cs

/-- Line-boundary characters of Python `str.splitlines()`:
`\n`, `\r` (with `\r\n` counting once), `\v`, `\f`, FS, GS, RS, NEL, LINE
SEPARATOR, PARAGRAPH SEPARATOR. -/
def isLineBreak (c : Char) : Bool :=
  c = '\n' || c = '\r' || c = Char.ofNat 11 || c = Char.ofNat 12 ||
  c = Char.ofNat 28 || c = Char.ofNat 29 || c = Char.ofNat 30 ||
  c = Char.ofNat 133 || c = Char.ofNat 8232 || c = Char.ofNat 8233

/-- Worker for `splitlines`: `acc` holds the current line reversed. -/
def splitlinesAux (acc : List Char) : List Char → List (List Char)
  | [] => if acc.isEmpty then [] else [acc.reverse]
  | '\r' :: '\n' :: cs => acc.reverse :: splitlinesAux [] cs
  | c :: cs =>
    if isLineBreak c then acc.reverse :: splitlinesAux [] cs
    else splitlinesAux (c :: acc) cs

/-- Model of Python `str.splitlines()` (line 47): no trailing empty line
when the text ends with a line boundary. -/
def splitlines (s : String) : List (List Char) :=
  splitlinesAux [] s.data

/-- The scan of lines 46-51: walk the stderr lines in order and return the
first regex match found, if any.  The Python loop `break`s as soon as one
line matches. -/
def findPageMatch : List (List Char) → Option (Nat × Nat)
  | [] => none
  | l :: ls =>
    match searchPage l with
    | some r => some r
    | none => findPageMatch ls

/-- The value of the Python variable `num_pages` after the loop of lines
46-51: the "total" group of the first matching line, or the initial `0`
when no line matches. -/
def num_pages (stderr : String) : Nat :=
  match findPageMatch (splitlines stderr) with
  | some (_, total) => total
  | none => 0

/-- The "total" groups of all matching lines of the diagnostic text, in
order (each line contributes the total of its leftmost match). -/
def lineTotals (stderr : String) : List Nat :=
  (splitlines stderr).filterMap fun l => (searchPage l).map Prod.snd

/-- The total of the first matching line, if any. -/
def firstTotal (stderr : String) : Option Nat :=
  (lineTotals stderr).head?

/-- Modelled from the spec's words, for comparison with the code: "the
maximum \"total\" value among all \"Page d/total\" lines in the tool's
diagnostic output". -/
def specMaxTotal (stderr : String) : Nat :=
  (lineTotals stderr).foldr max 0

/-- The tool-native filename of page `k`: `f"page-{page}-{page}.ppm"`
(lines 63-65), relative to the output directory. -/
def nativeName (k : Nat) : String :=
  "page-" ++ toString k ++ "-" ++ toString k ++ ".ppm"

/-- The canonical filename of page `k`: `f"page-{page}.ppm"` (lines 66-68),
relative to the output directory. -/
def canonicalName (k : Nat) : String :=
  "page-" ++ toString k ++ ".ppm"

/-- Effect of `os.rename(old, new)` on the set of names in the output
directory: `old` disappears, `new` exists afterwards (replaced if it
already existed). -/
def renameFile (files : List String) (old new : String) : List String :=
  (files.filter fun f => f ≠ old && f ≠ new) ++ [new]

/-- One iteration of the rename loop (lines 62-74) on the state
(directory content, pages warned about so far): if the native file of
`page` exists it is renamed to the canonical name, otherwise a warning for
that page is recorded (the printed warning names the missing path). -/
def renameStep (st : List String × List Nat) (page : Nat) : List String × List Nat :=
  if nativeName page ∈ st.1 then
    (renameFile st.1 (nativeName page) (canonicalName page), st.2)
  else
    (st.1, st.2 ++ [page])

/-- The rename loop of lines 62-74: `for page in range(1, num_pages + 1)`. -/
def renameLoop (files : List String) (numPages : Nat) : List String × List Nat :=
  (List.range' 1 numPages).foldl renameStep (files, [])

/-- Everything outside the function that determines one invocation's
observable behaviour: filesystem facts and the external tool's outcome. -/
structure Env where
  pdfExists : Bool
  mkdirOk : Bool
  toolFound : Bool
  exitCode : Nat
  stdout : String
  stderr : String
  preFiles : List String
  producedFiles : List String
deriving DecidableEq

/-- The terminal report the function prints before `return`ing (the spec's
error kinds, plus success with the recovered page count). -/
inductive Outcome where
  | inputNotFound : Outcome
  | externalToolMissing : Outcome
  | externalToolFailure : Nat → String → String → Outcome
  | pageCountUnavailable : String → Outcome
  | success : Nat → Outcome
deriving DecidableEq

/-- Observable trace of one invocation: the printed outcome, whether
`os.makedirs` completed, how many times `subprocess.run` was called, the
final content of the output directory, and the pages for which a
"file was not created" warning was printed. -/
structure RunRecord where
  outcome : Outcome
  madeDirs : Bool
  runCalls : Nat
  files : List String
  warnings : List Nat
deriving DecidableEq

/-- The uncaught exception propagating out of `convert_pdf_to_ppms`:
`os.makedirs` (line 24) sits outside the `try` block, so an `OSError`
(Python's `IOError`) raised there escapes the function unhandled. -/
inductive MakedirsError where
  | osError : MakedirsError
deriving DecidableEq

/-- Shallow embedding of `convert_pdf_to_ppms` (src/pdumpf.py, lines 9-92).
Order of steps as in the source: validate the PDF path (lines 19-21),
`os.makedirs` (line 24, outside the `try`: failure propagates), run
`pdftoppm` (lines 41-43; `FileNotFoundError` when the binary is missing,
`CalledProcessError` carrying exit code/stdout/stderr when it exits
non-zero), parse stderr for the page count (lines 46-55), then rename the
per-page files (lines 62-74). -/
def convert_pdf_to_ppms (env : Env) : Except MakedirsError RunRecord :=
  if env.pdfExists = false then
    .ok ⟨.inputNotFound, false, 0, env.preFiles, []⟩
  else if env.mkdirOk = false then
    .error .osError
  else if env.toolFound = false then
    .ok ⟨.externalToolMissing, true, 1, env.preFiles, []⟩
  else if env.exitCode ≠ 0 then
    .ok ⟨.externalToolFailure env.exitCode env.stdout env.stderr, true, 1,
         env.preFiles ++ env.producedFiles, []⟩
  else if num_pages env.stderr = 0 then
    .ok ⟨.pageCountUnavailable env.stderr, true, 1,
         env.preFiles ++ env.producedFiles, []⟩
  else
    .ok ⟨.success (num_pages env.stderr), true, 1,
         (renameLoop (env.preFiles ++ env.producedFiles) (num_pages env.stderr)).1,
         (renameLoop (env.preFiles ++ env.producedFiles) (num_pages env.stderr)).2⟩

/-- The printed outcome of a run, when no exception escaped. -/
def runOutcome (env : Env) : Option Outcome :=
  match convert_pdf_to_ppms env with
  | .ok r => some r.outcome
  | .error _ => none

/-- The final output-directory content of a run, when no exception escaped. -/
def runFiles (env : Env) : Option (List String) :=
  match convert_pdf_to_ppms env with
  | .ok r => some r.files
  | .error _ => none

/-- The recovered page count of a successful run. -/
def runCount (env : Env) : Option Nat :=
  match convert_pdf_to_ppms env with
  | .ok r =>
    match r.outcome with
    | .success n => some n
    | _ => none
  | .error _ => none

/-- Modelled from the spec's words, for comparison with the code: a
filename of the "zero-padded sequential pattern `page-<NNN>.<ext>`
(three-digit, zero-padded page numbers)": literal `page-`, exactly three
decimal digits, a dot, and a nonempty extension. -/
def isPaddedName : List Char → Bool
  | 'p' :: 'a' :: 'g' :: 'e' :: '-' :: a :: b :: c :: '.' :: ext =>
    isDigitChar a && isDigitChar b && isDigitChar c && !ext.isEmpty
  | _ => false

/-! ## Helper lemmas -/

theorem findPageMatch_map_snd (ls : List (List Char)) :
    (findPageMatch ls).map Prod.snd =
      (ls.filterMap fun l => (searchPage l).map Prod.snd).head? := by
  induction ls with
  | nil => rfl
  | cons l ls ih =>
    cases h : searchPage l with
    | none => simp [findPageMatch, h, ih]
    | some r => simp [findPageMatch, h]

theorem num_pages_eq_firstTotal (s : String) :
    num_pages s = (firstTotal s).getD 0 := by
  unfold num_pages firstTotal lineTotals
  rw [← findPageMatch_map_snd]
  cases h : findPageMatch (splitlines s) with
  | none => simp [h]
  | some r => obtain ⟨d, t⟩ := r; simp [h]

theorem renameStep_fst_mem {st : List String × List Nat} {p : Nat} {f : String}
    (h : f ∈ (renameStep st p).1) : f ∈ st.1 ∨ f = canonicalName p := by
  unfold renameStep at h
  by_cases hc : nativeName p ∈ st.1
  · simp only [hc, if_true, renameFile, List.mem_append, List.mem_filter,
      List.mem_singleton] at h
    rcases h with ⟨hf, _⟩ | hf
    · exact Or.inl hf
    · exact Or.inr hf
  · simp only [hc, if_false] at h
    exact Or.inl h

theorem foldl_renameStep_fst_mem (pages : List Nat) :
    ∀ st : List String × List Nat, ∀ f ∈ (pages.foldl renameStep st).1,
      f ∈ st.1 ∨ ∃ k ∈ pages, f = canonicalName k := by
  induction pages with
  | nil => intro st f hf; exact Or.inl hf
  | cons p ps ih =>
    intro st f hf
    rcases ih (renameStep st p) f hf with h | ⟨k, hk, hfk⟩
    · rcases renameStep_fst_mem h with h' | h'
      · exact Or.inl h'
      · exact Or.inr ⟨p, List.mem_cons_self p ps, h'⟩
    · exact Or.inr ⟨k, List.mem_cons_of_mem p hk, hfk⟩

theorem renameLoop_fst_mem {files : List String} {n : Nat} {f : String}
    (h : f ∈ (renameLoop files n).1) :
    f ∈ files ∨ ∃ k, 1 ≤ k ∧ k ≤ n ∧ f = canonicalName k := by
  rcases foldl_renameStep_fst_mem (List.range' 1 n) (files, []) f h with h' | ⟨k, hk, hfk⟩
  · exact Or.inl h'
  · rw [List.mem_range'_1] at hk
    exact Or.inr ⟨k, hk.1, by omega, hfk⟩

/-! ## The claims -/

/-- C3: for every request whose source PDF path does not exist, the
conversion fails with `InputNotFound` and performs no filesystem writes:
the output directory is not created, `subprocess.run` is never called, and
the directory content is untouched (no renames). -/
theorem claim3_input_not_found (env : Env) (h : env.pdfExists = false) :
    convert_pdf_to_ppms env = .ok ⟨.inputNotFound, false, 0, env.preFiles, []⟩ := by
  simp [convert_pdf_to_ppms, h]

theorem claim3_witness :
    convert_pdf_to_ppms ⟨false, true, true, 0, "", "", ["keep.txt"], []⟩ =
      .ok ⟨.inputNotFound, false, 0, ["keep.txt"], []⟩ :=
  claim3_input_not_found ⟨false, true, true, 0, "", "", ["keep.txt"], []⟩ rfl

/-- C4: for every request with an existing source path, if the converter
binary cannot be located (`FileNotFoundError` from `subprocess.run`), the
run fails with `ExternalToolMissing`, the output directory has been
ensured by `os.makedirs`, and no image files are written or renamed. -/
theorem claim4_tool_missing (env : Env) (h1 : env.pdfExists = true)
    (h2 : env.mkdirOk = true) (h3 : env.toolFound = false) :
    convert_pdf_to_ppms env = .ok ⟨.externalToolMissing, true, 1, env.preFiles, []⟩ := by
  simp [convert_pdf_to_ppms, h1, h2, h3]

theorem claim4_witness :
    convert_pdf_to_ppms ⟨true, true, false, 0, "", "", [], []⟩ =
      .ok ⟨.externalToolMissing, true, 1, [], []⟩ :=
  claim4_tool_missing ⟨true, true, false, 0, "", "", [], []⟩ rfl rfl rfl

/-- C2: if the tool exits successfully but its diagnostic output contains
zero lines matching the page pattern, the run fails with
`PageCountUnavailable` (carrying the stderr text); no success is reported
and no renames are performed — the directory keeps exactly the files that
were already there plus what the tool wrote, even if PPM files exist. -/
theorem claim2_page_count_unavailable (env : Env) (h1 : env.pdfExists = true)
    (h2 : env.mkdirOk = true) (h3 : env.toolFound = true)
    (h4 : env.exitCode = 0) (h5 : lineTotals env.stderr = []) :
    convert_pdf_to_ppms env =
      .ok ⟨.pageCountUnavailable env.stderr, true, 1,
           env.preFiles ++ env.producedFiles, []⟩ := by
  have hn : num_pages env.stderr = 0 := by
    rw [num_pages_eq_firstTotal, firstTotal, h5]; rfl
  simp [convert_pdf_to_ppms, h1, h2, h3, h4, hn]

theorem claim2_witness :
    lineTotals "Syntax Warning: no progress lines here" = [] ∧
    convert_pdf_to_ppms
        ⟨true, true, true, 0, "", "Syntax Warning: no progress lines here",
         ["page-1.ppm"], ["page-1-1.ppm"]⟩ =
      .ok ⟨.pageCountUnavailable "Syntax Warning: no progress lines here", true, 1,
           ["page-1.ppm", "page-1-1.ppm"], []⟩ :=
  ⟨rfl,
   claim2_page_count_unavailable
     ⟨true, true, true, 0, "", "Syntax Warning: no progress lines here",
      ["page-1.ppm"], ["page-1-1.ppm"]⟩ rfl rfl rfl rfl rfl⟩

/-- C7: when the tool runs but exits with a non-zero status
(`CalledProcessError` from `check=True`), the run fails with
`ExternalToolFailure` carrying the exit code and the captured stdout and
stderr; page-count parsing, renaming and success reporting are skipped
(the directory keeps the pre-existing plus tool-written files, no
warnings), and `subprocess.run` was called exactly once (no retry). -/
theorem claim7_tool_failure (env : Env) (h1 : env.pdfExists = true)
    (h2 : env.mkdirOk = true) (h3 : env.toolFound = true)
    (h4 : env.exitCode ≠ 0) :
    convert_pdf_to_ppms env =
      .ok ⟨.externalToolFailure env.exitCode env.stdout env.stderr, true, 1,
           env.preFiles ++ env.producedFiles, []⟩ := by
  simp [convert_pdf_to_ppms, h1, h2, h3, h4]

theorem claim7_witness :
    (1 : Nat) ≠ 0 ∧
    convert_pdf_to_ppms ⟨true, true, true, 1, "out", "Page 1/4", [], ["page-1-1.ppm"]⟩ =
      .ok ⟨.externalToolFailure 1 "out" "Page 1/4", true, 1, ["page-1-1.ppm"], []⟩ :=
  ⟨one_ne_zero,
   claim7_tool_failure ⟨true, true, true, 1, "out", "Page 1/4", [], ["page-1-1.ppm"]⟩
     rfl rfl rfl one_ne_zero⟩

/-- C8, counterexample: the claim says a failure of output-directory
creation is surfaced as a handled, categorized `IOError` failure rather
than an uncaught exception.  In the code `os.makedirs` (line 24) sits
outside the `try` block, so the `OSError` escapes the function unhandled:
in the embedding the run ends in the exceptional `.error` case instead of
any handled `.ok` outcome. -/
theorem claim8_counterexample :
    convert_pdf_to_ppms ⟨true, false, true, 0, "", "", [], []⟩ = .error .osError :=
  rfl

/-- C8, amended: for every request with an existing source path,
`os.makedirs` is called (recursively ensuring the output directory) before
the external process, so every run that calls `subprocess.run` has the
directory ensured; but if creation is impossible, the `OSError` (Python's
`IOError`) propagates to the caller as an uncaught exception, because the
`os.makedirs` call is outside the `try` block. -/
theorem claim8_amended (env : Env) (h : env.pdfExists = true) :
    (env.mkdirOk = false → convert_pdf_to_ppms env = .error .osError) ∧
    (env.mkdirOk = true →
      ∃ r : RunRecord, convert_pdf_to_ppms env = .ok r ∧ r.madeDirs = true) := by
  constructor
  · intro hm
    simp [convert_pdf_to_ppms, h, hm]
  · intro hm
    by_cases ht : env.toolFound = true
    · by_cases he : env.exitCode = 0
      · by_cases hn : num_pages env.stderr = 0
        · exact ⟨⟨.pageCountUnavailable env.stderr, true, 1,
                  env.preFiles ++ env.producedFiles, []⟩,
            by simp [convert_pdf_to_ppms, h, hm, ht, he, hn], rfl⟩
        · exact ⟨⟨.success (num_pages env.stderr), true, 1,
                  (renameLoop (env.preFiles ++ env.producedFiles)
                    (num_pages env.stderr)).1,
                  (renameLoop (env.preFiles ++ env.producedFiles)
                    (num_pages env.stderr)).2⟩,
            by simp [convert_pdf_to_ppms, h, hm, ht, he, hn], rfl⟩
      · exact ⟨⟨.externalToolFailure env.exitCode env.stdout env.stderr, true, 1,
                env.preFiles ++ env.producedFiles, []⟩,
          by simp [convert_pdf_to_ppms, h, hm, ht, he], rfl⟩
    · have ht' : env.toolFound = false := by
        cases hv : env.toolFound
        · rfl
        · exact absurd hv ht
      exact ⟨⟨.externalToolMissing, true, 1, env.preFiles, []⟩,
        by simp [convert_pdf_to_ppms, h, hm, ht'], rfl⟩

theorem claim8_witness :
    (convert_pdf_to_ppms ⟨true, false, true, 0, "", "", [], []⟩ = .error .osError) ∧
    (∃ r : RunRecord,
      convert_pdf_to_ppms ⟨true, true, false, 0, "", "", [], []⟩ = .ok r ∧
        r.madeDirs = true) :=
  ⟨(claim8_amended ⟨true, false, true, 0, "", "", [], []⟩ rfl).1 rfl,
   (claim8_amended ⟨true, true, false, 0, "", "", [], []⟩ rfl).2 rfl⟩

/-- C1, counterexample: the claim says the recovered page count equals the
maximum "total" among all matching lines of the diagnostic text.  The loop
of lines 46-51 `break`s at the first matching line, so for the diagnostic
text with lines `Page 1/2` and `Page 2/5` the code recovers 2 while the
maximum total is 5. -/
theorem claim1_counterexample :
    runCount ⟨true, true, true, 0, "", "Page 1/2\nPage 2/5", [],
              ["page-1-1.ppm", "page-2-2.ppm"]⟩ = some 2 ∧
    specMaxTotal "Page 1/2\nPage 2/5" = 5 ∧ (2 : Nat) ≠ 5 :=
  ⟨rfl, rfl, by omega⟩

/-- C1, amended: the page count recovered by `ConvertToPPMs` equals the
"total" value of the FIRST line matching `Page <done>/<total>` in the
diagnostic output (which coincides with the maximum when all totals agree,
as with the real tool); in particular, for diagnostic lines `Page 1/5`,
`Page 2/5`, `Page 5/5` the recovered count is 5. -/
theorem claim1_amended (env : Env) (h1 : env.pdfExists = true)
    (h2 : env.mkdirOk = true) (h3 : env.toolFound = true)
    (h4 : env.exitCode = 0) (t : Nat) (h5 : firstTotal env.stderr = some t)
    (h6 : t ≠ 0) : runCount env = some t := by
  have hn : num_pages env.stderr = t := by
    rw [num_pages_eq_firstTotal, h5]; rfl
  simp [runCount, convert_pdf_to_ppms, h1, h2, h3, h4, hn, h6]

theorem claim1_witness :
    firstTotal "Page 1/5\nPage 2/5\nPage 5/5" = some 5 ∧ (5 : Nat) ≠ 0 ∧
    runCount ⟨true, true, true, 0, "", "Page 1/5\nPage 2/5\nPage 5/5", [],
              ["page-1-1.ppm", "page-2-2.ppm", "page-3-3.ppm", "page-4-4.ppm",
               "page-5-5.ppm"]⟩ = some 5 :=
  ⟨rfl, by omega,
   claim1_amended
     ⟨true, true, true, 0, "", "Page 1/5\nPage 2/5\nPage 5/5", [],
      ["page-1-1.ppm", "page-2-2.ppm", "page-3-3.ppm", "page-4-4.ppm",
       "page-5-5.ppm"]⟩ rfl rfl rfl rfl 5 rfl (by omega)⟩

/-- C10: the page-count scan stops at the first matching line: the
recovered count is that line's "total" (as a successful count when it is
non-zero, and no count otherwise); consequently, when the first matching
line's total is 0 (e.g. `Page 1/0`), the run fails with
`PageCountUnavailable` even when a later line carries a positive total. -/
theorem claim10_first_match_wins (env : Env) (h1 : env.pdfExists = true)
    (h2 : env.mkdirOk = true) (h3 : env.toolFound = true)
    (h4 : env.exitCode = 0) (t : Nat) (h5 : firstTotal env.stderr = some t) :
    runCount env = (if t = 0 then none else some t) ∧
    (t = 0 → runOutcome env = some (.pageCountUnavailable env.stderr)) := by
  have hn : num_pages env.stderr = t := by
    rw [num_pages_eq_firstTotal, h5]; rfl
  by_cases h0 : t = 0
  · subst h0
    constructor
    · simp [runCount, convert_pdf_to_ppms, h1, h2, h3, h4, hn]
    · intro _
      simp [runOutcome, convert_pdf_to_ppms, h1, h2, h3, h4, hn]
  · constructor
    · simp [runCount, convert_pdf_to_ppms, h1, h2, h3, h4, hn, h0]
    · intro h; exact absurd h h0

theorem claim10_witness :
    firstTotal "Page 1/0\nPage 2/9" = some 0 ∧
    specMaxTotal "Page 1/0\nPage 2/9" = 9 ∧
    runOutcome ⟨true, true, true, 0, "", "Page 1/0\nPage 2/9", [], []⟩ =
      some (.pageCountUnavailable "Page 1/0\nPage 2/9") :=
  ⟨rfl, rfl,
   (claim10_first_match_wins ⟨true, true, true, 0, "", "Page 1/0\nPage 2/9", [], []⟩
     rfl rfl rfl rfl 0 rfl).2 rfl⟩

/-- C5, counterexample: the claim says every successfully produced image
file is named with the three-digit zero-padded pattern `page-<NNN>.<ext>`.
The rename loop uses `f"page-{page}.ppm"` with no padding: a successful
one-page run leaves the file `page-1.ppm`, which does not match the
zero-padded pattern. -/
theorem claim5_counterexample :
    convert_pdf_to_ppms ⟨true, true, true, 0, "", "Page 1/1", [], ["page-1-1.ppm"]⟩ =
      .ok ⟨.success 1, true, 1, ["page-1.ppm"], []⟩ ∧
    isPaddedName ("page-1.ppm").data = false :=
  ⟨rfl, rfl⟩

/-- C5, amended: on every successful conversion, every file in the output
directory that was not already there (left by the user or written by the
tool under its own naming) was created by the rename normalization and is
named `page-<k>.ppm` with `k` the plain (unpadded) decimal page number,
`1 ≤ k ≤` the recovered page count. -/
theorem claim5_amended (env : Env) (r : RunRecord) (n : Nat)
    (hr : convert_pdf_to_ppms env = .ok r) (ho : r.outcome = .success n) :
    ∀ f ∈ r.files, f ∈ env.preFiles ++ env.producedFiles ∨
      ∃ k, 1 ≤ k ∧ k ≤ n ∧ f = canonicalName k := by
  unfold convert_pdf_to_ppms at hr
  split at hr
  · injection hr with hr; subst hr; simp at ho
  · split at hr
    · simp at hr
    · split at hr
      · injection hr with hr; subst hr; simp at ho
      · split at hr
        · injection hr with hr; subst hr; simp at ho
        · split at hr
          · injection hr with hr; subst hr; simp at ho
          · injection hr with hr
            subst hr
            have hn : num_pages env.stderr = n := Outcome.success.inj ho
            intro f hf
            rcases renameLoop_fst_mem hf with h | ⟨k, hk1, hk2, hk3⟩
            · exact Or.inl h
            · exact Or.inr ⟨k, hk1, hn ▸ hk2, hk3⟩

theorem claim5_witness :
    "page-1.ppm" ∈ ([] : List String) ++ ["page-1-1.ppm"] ∨
      ∃ k, 1 ≤ k ∧ k ≤ 1 ∧ "page-1.ppm" = canonicalName k :=
  claim5_amended ⟨true, true, true, 0, "", "Page 1/1", [], ["page-1-1.ppm"]⟩
    ⟨.success 1, true, 1, ["page-1.ppm"], []⟩ 1 rfl rfl "page-1.ppm" (by simp)

/-!
Facts about the generated filenames, needed to reason about the rename
loop for an arbitrary page count: the decimal rendering of a `Nat` is a
nonempty string of digits and is injective, so the native names
`page-k-k.ppm` of distinct pages are distinct and never collide with the
canonical names `page-k.ppm`.
-/

theorem toDigitsCore_append (f : Nat) : ∀ (n : Nat) (ds : List Char),
    Nat.toDigitsCore 10 f n ds = Nat.toDigitsCore 10 f n [] ++ ds := by
  induction f with
  | zero => intro n ds; rfl
  | succ f ih =>
    intro n ds
    simp only [Nat.toDigitsCore]
    by_cases h : n / 10 = 0
    · simp [h]
    · rw [if_neg h, if_neg h, ih (n / 10) (Nat.digitChar (n % 10) :: ds),
        ih (n / 10) [Nat.digitChar (n % 10)]]
      simp

theorem digitsToNat_append_singleton (ds : List Char) (c : Char) :
    digitsToNat (ds ++ [c]) = 10 * digitsToNat ds + (c.toNat - ('0').toNat) := by
  simp [digitsToNat, List.foldl_append]

theorem digitChar_isDigit : ∀ m : Nat, m < 10 → isDigitChar (Nat.digitChar m) = true := by
  decide

theorem digitChar_val : ∀ m : Nat, m < 10 →
    (Nat.digitChar m).toNat - ('0').toNat = m := by
  decide

theorem digitsToNat_digitChar : ∀ m : Nat, m < 10 →
    digitsToNat [Nat.digitChar m] = m := by
  decide

theorem digitsToNat_toDigitsCore (f : Nat) : ∀ n : Nat, n < f →
    digitsToNat (Nat.toDigitsCore 10 f n []) = n := by
  induction f with
  | zero => intro n h; exact absurd h (Nat.not_lt_zero n)
  | succ f ih =>
    intro n h
    simp only [Nat.toDigitsCore]
    by_cases h0 : n / 10 = 0
    · rw [if_pos h0, digitsToNat_digitChar (n % 10) (Nat.mod_lt n (by norm_num))]
      omega
    · rw [if_neg h0, toDigitsCore_append, digitsToNat_append_singleton,
        ih (n / 10) (by omega), digitChar_val (n % 10) (Nat.mod_lt n (by norm_num))]
      omega

theorem toDigitsCore_digits (f : Nat) : ∀ n : Nat, ∀ c ∈ Nat.toDigitsCore 10 f n [],
    isDigitChar c = true := by
  induction f with
  | zero => intro n c hc; simp [Nat.toDigitsCore] at hc
  | succ f ih =>
    intro n c hc
    simp only [Nat.toDigitsCore] at hc
    by_cases h0 : n / 10 = 0
    · rw [if_pos h0, List.mem_singleton] at hc
      subst hc
      exact digitChar_isDigit (n % 10) (Nat.mod_lt n (by norm_num))
    · rw [if_neg h0, toDigitsCore_append] at hc
      rcases List.mem_append.1 hc with h1 | h1
      · exact ih (n / 10) c h1
      · rw [List.mem_singleton] at h1
        subst h1
        exact digitChar_isDigit (n % 10) (Nat.mod_lt n (by norm_num))

theorem digitsToNat_toString (n : Nat) : digitsToNat (toString n).data = n :=
  digitsToNat_toDigitsCore (n + 1) n (Nat.lt_succ_self n)

theorem toString_nat_digits (n : Nat) : ∀ c ∈ (toString n).data, isDigitChar c = true :=
  toDigitsCore_digits (n + 1) n

theorem toString_nat_inj {j k : Nat} (h : (toString j).data = (toString k).data) :
    j = k := by
  have hj := digitsToNat_toString j
  rw [h, digitsToNat_toString] at hj
  exact hj.symm

theorem takeDigits_append_nondigit (ds : List Char) (c : Char) (rest : List Char)
    (h1 : ∀ d ∈ ds, isDigitChar d = true) (h2 : isDigitChar c = false) :
    takeDigits (ds ++ c :: rest) = (ds, c :: rest) := by
  induction ds with
  | nil => simp [takeDigits, h2]
  | cons d ds ih =>
    have hd : isDigitChar d = true := h1 d (List.mem_cons_self d ds)
    have hih := ih fun e he => h1 e (List.mem_cons_of_mem d he)
    simp [takeDigits, hd, hih]

theorem canonicalName_data (k : Nat) :
    (canonicalName k).data =
      'p' :: 'a' :: 'g' :: 'e' :: '-' ::
        ((toString k).data ++ '.' :: 'p' :: 'p' :: 'm' :: []) := by
  simp only [canonicalName, String.data_append, List.append_assoc]
  rfl

theorem nativeName_data (k : Nat) :
    (nativeName k).data =
      'p' :: 'a' :: 'g' :: 'e' :: '-' ::
        ((toString k).data ++ '-' ::
          ((toString k).data ++ '.' :: 'p' :: 'p' :: 'm' :: [])) := by
  simp only [nativeName, String.data_append, List.append_assoc]
  rfl

theorem canonicalName_ne_nativeName (j k : Nat) : canonicalName j ≠ nativeName k := by
  intro h
  have hd := congrArg String.data h
  rw [canonicalName_data, nativeName_data] at hd
  simp at hd
  have h1 := congrArg takeDigits hd
  rw [takeDigits_append_nondigit _ _ _ (toString_nat_digits j) (by decide),
      takeDigits_append_nondigit _ _ _ (toString_nat_digits k) (by decide)] at h1
  have h2 := congrArg Prod.snd h1
  simp at h2

theorem nativeName_inj {j k : Nat} (h : nativeName j = nativeName k) : j = k := by
  have hd := congrArg String.data h
  rw [nativeName_data, nativeName_data] at hd
  simp at hd
  have h1 := congrArg takeDigits hd
  rw [takeDigits_append_nondigit _ _ _ (toString_nat_digits j) (by decide),
      takeDigits_append_nondigit _ _ _ (toString_nat_digits k) (by decide)] at h1
  exact toString_nat_inj (congrArg Prod.fst h1)

theorem canonicalName_inj {j k : Nat} (h : canonicalName j = canonicalName k) :
    j = k := by
  have hd := congrArg String.data h
  rw [canonicalName_data, canonicalName_data] at hd
  simp at hd
  exact toString_nat_inj hd

/-!
Invariants of the rename loop, for an arbitrary page count and arbitrary
directory content: renaming page `p` does not affect whether the native
file of another page is present, the warnings collected are exactly the
pages whose native file was absent when the loop started, and a page
whose native file is present ends renamed (canonical name present, native
name gone) no matter what happens to the other pages.
-/

theorem renameFile_native_mem {fs : List String} {p j : Nat} (hjp : j ≠ p) :
    nativeName j ∈ renameFile fs (nativeName p) (canonicalName p) ↔
      nativeName j ∈ fs := by
  have h1 : nativeName j ≠ nativeName p := fun h => hjp (nativeName_inj h)
  have h2 : nativeName j ≠ canonicalName p := fun h =>
    canonicalName_ne_nativeName p j h.symm
  simp [renameFile, List.mem_filter, h1, h2]

theorem foldl_renameStep_warnings : ∀ (ps : List Nat), ps.Nodup →
    ∀ (fs : List String) (ws : List Nat),
    (ps.foldl renameStep (fs, ws)).2 =
      ws ++ ps.filter fun k => !decide (nativeName k ∈ fs) := by
  intro ps
  induction ps with
  | nil => intro _ fs ws; simp
  | cons p ps ih =>
    intro hnd fs ws
    rw [List.nodup_cons] at hnd
    rw [List.foldl_cons]
    by_cases hmem : nativeName p ∈ fs
    · rw [show renameStep (fs, ws) p =
          (renameFile fs (nativeName p) (canonicalName p), ws) from by
        simp [renameStep, hmem]]
      rw [ih hnd.2, List.filter_cons_of_neg (by simp [hmem])]
      congr 1
      apply List.filter_congr
      intro k hk
      have hkp : k ≠ p := fun h => hnd.1 (h ▸ hk)
      exact congrArg (fun b => !b) (decide_eq_decide.2 (renameFile_native_mem hkp))
    · rw [show renameStep (fs, ws) p = (fs, ws ++ [p]) from by simp [renameStep, hmem]]
      rw [ih hnd.2, List.filter_cons_of_pos (by simp [hmem])]
      simp

theorem foldl_renameStep_preserve : ∀ (ps : List Nat) (fs : List String)
    (ws : List Nat) (x : String), x ∈ fs →
    (∀ j ∈ ps, x ≠ nativeName j ∧ x ≠ canonicalName j) →
    x ∈ (ps.foldl renameStep (fs, ws)).1 := by
  intro ps
  induction ps with
  | nil => intro fs ws x hx _; exact hx
  | cons p ps ih =>
    intro fs ws x hx hne
    rw [List.foldl_cons]
    obtain ⟨hnx, hcx⟩ := hne p (List.mem_cons_self p ps)
    by_cases hmem : nativeName p ∈ fs
    · rw [show renameStep (fs, ws) p =
          (renameFile fs (nativeName p) (canonicalName p), ws) from by
        simp [renameStep, hmem]]
      refine ih _ _ _ ?_ fun j hj => hne j (List.mem_cons_of_mem p hj)
      simp [renameFile, List.mem_filter, hx, hnx, hcx]
    · rw [show renameStep (fs, ws) p = (fs, ws ++ [p]) from by simp [renameStep, hmem]]
      exact ih _ _ _ hx fun j hj => hne j (List.mem_cons_of_mem p hj)

theorem foldl_renameStep_notin : ∀ (ps : List Nat) (fs : List String)
    (ws : List Nat) (x : String), x ∉ fs →
    (∀ j ∈ ps, x ≠ canonicalName j) →
    x ∉ (ps.foldl renameStep (fs, ws)).1 := by
  intro ps
  induction ps with
  | nil => intro fs ws x hx _; exact hx
  | cons p ps ih =>
    intro fs ws x hx hne
    rw [List.foldl_cons]
    by_cases hmem : nativeName p ∈ fs
    · rw [show renameStep (fs, ws) p =
          (renameFile fs (nativeName p) (canonicalName p), ws) from by
        simp [renameStep, hmem]]
      refine ih _ _ _ ?_ fun j hj => hne j (List.mem_cons_of_mem p hj)
      simp only [renameFile, List.mem_append, List.mem_filter, List.mem_singleton]
      intro hc
      rcases hc with ⟨hxfs, _⟩ | hxc
      · exact hx hxfs
      · exact hne p (List.mem_cons_self p ps) hxc
    · rw [show renameStep (fs, ws) p = (fs, ws ++ [p]) from by simp [renameStep, hmem]]
      exact ih _ _ _ hx fun j hj => hne j (List.mem_cons_of_mem p hj)

theorem foldl_renameStep_renames : ∀ (ps : List Nat), ps.Nodup →
    ∀ (fs : List String) (ws : List Nat) (k : Nat), k ∈ ps → nativeName k ∈ fs →
    canonicalName k ∈ (ps.foldl renameStep (fs, ws)).1 ∧
      nativeName k ∉ (ps.foldl renameStep (fs, ws)).1 := by
  intro ps
  induction ps with
  | nil => intro _ fs ws k hk; exact absurd hk (List.not_mem_nil k)
  | cons p ps ih =>
    intro hnd fs ws k hk hmemk
    rw [List.nodup_cons] at hnd
    rw [List.foldl_cons]
    rcases List.mem_cons.1 hk with rfl | hk'
    · rw [show renameStep (fs, ws) k =
          (renameFile fs (nativeName k) (canonicalName k), ws) from by
        simp [renameStep, hmemk]]
      constructor
      · refine foldl_renameStep_preserve ps _ ws (canonicalName k) ?_ ?_
        · simp [renameFile]
        · intro j hj
          have hjk : j ≠ k := fun h => hnd.1 (h ▸ hj)
          exact ⟨canonicalName_ne_nativeName k j,
            fun h => hjk (canonicalName_inj h.symm)⟩
      · refine foldl_renameStep_notin ps _ ws (nativeName k) ?_ ?_
        · simp only [renameFile, List.mem_append, List.mem_filter, List.mem_singleton]
          intro hc
          rcases hc with ⟨_, hb⟩ | hb
          · simp at hb
          · exact canonicalName_ne_nativeName k k hb.symm
        · intro j hj h
          exact canonicalName_ne_nativeName j k h.symm
    · have hkp : k ≠ p := fun h => hnd.1 (h ▸ hk')
      by_cases hmem : nativeName p ∈ fs
      · rw [show renameStep (fs, ws) p =
            (renameFile fs (nativeName p) (canonicalName p), ws) from by
          simp [renameStep, hmem]]
        exact ih hnd.2 _ _ k hk' ((renameFile_native_mem hkp).2 hmemk)
      · rw [show renameStep (fs, ws) p = (fs, ws ++ [p]) from by simp [renameStep, hmem]]
        exact ih hnd.2 _ _ k hk' hmemk

/-- C6: on every successful run that recovers page count `n`, for each page
`k` from 1 to `n`: if the tool-produced native file `page-k-k.ppm` is
present at the start of the rename loop it is renamed to the canonical
`page-k.ppm` (the canonical name is in the final directory and the native
name is not, regardless of which other pages are missing — the remaining
renames are always attempted); if it is absent, a non-fatal warning for
page `k` is recorded, and the warnings are exactly the absent pages of
1..n, in order. -/
theorem claim6_renames (env : Env) (r : RunRecord) (n : Nat)
    (hr : convert_pdf_to_ppms env = .ok r) (ho : r.outcome = .success n) :
    r.warnings = (List.range' 1 n).filter
        (fun k => !decide (nativeName k ∈ env.preFiles ++ env.producedFiles)) ∧
    ∀ k, 1 ≤ k → k ≤ n →
      (nativeName k ∈ env.preFiles ++ env.producedFiles →
        canonicalName k ∈ r.files ∧ nativeName k ∉ r.files) ∧
      (nativeName k ∉ env.preFiles ++ env.producedFiles → k ∈ r.warnings) := by
  unfold convert_pdf_to_ppms at hr
  split at hr
  · injection hr with hr; subst hr; simp at ho
  · split at hr
    · simp at hr
    · split at hr
      · injection hr with hr; subst hr; simp at ho
      · split at hr
        · injection hr with hr; subst hr; simp at ho
        · split at hr
          · injection hr with hr; subst hr; simp at ho
          · injection hr with hr
            subst hr
            have hn : num_pages env.stderr = n := Outcome.success.inj ho
            subst hn
            have hnodup : (List.range' 1 (num_pages env.stderr)).Nodup :=
              List.nodup_range' 1 (num_pages env.stderr)
            constructor
            · show (renameLoop (env.preFiles ++ env.producedFiles)
                  (num_pages env.stderr)).2 = _
              unfold renameLoop
              rw [foldl_renameStep_warnings _ hnodup, List.nil_append]
            · intro k hk1 hk2
              have hkmem : k ∈ List.range' 1 (num_pages env.stderr) :=
                List.mem_range'_1.2 ⟨hk1, by omega⟩
              constructor
              · intro hmem
                exact foldl_renameStep_renames _ hnodup _ [] k hkmem hmem
              · intro hmem
                show k ∈ (renameLoop (env.preFiles ++ env.producedFiles)
                    (num_pages env.stderr)).2
                unfold renameLoop
                rw [foldl_renameStep_warnings _ hnodup, List.nil_append,
                  List.mem_filter]
                exact ⟨hkmem, by simp [hmem]⟩

theorem claim6_witness :
    convert_pdf_to_ppms ⟨true, true, true, 0, "", "Page 3/3", [],
        ["page-1-1.ppm", "page-2-2.ppm", "page-3-3.ppm"]⟩ =
      .ok ⟨.success 3, true, 1, ["page-1.ppm", "page-2.ppm", "page-3.ppm"], []⟩ ∧
    ([2] : List Nat) = (List.range' 1 3).filter
        (fun k => !decide (nativeName k ∈
          ([] : List String) ++ ["page-1-1.ppm", "page-3-3.ppm"])) ∧
    (canonicalName 1 ∈ ["page-1.ppm", "page-3.ppm"] ∧
      nativeName 1 ∉ ["page-1.ppm", "page-3.ppm"]) ∧
    (2 : Nat) ∈ ([2] : List Nat) := by
  have h := claim6_renames
    ⟨true, true, true, 0, "", "Page 3/3", [], ["page-1-1.ppm", "page-3-3.ppm"]⟩
    ⟨.success 3, true, 1, ["page-1.ppm", "page-3.ppm"], [2]⟩ 3 rfl rfl
  exact ⟨rfl, h.1, (h.2 1 (by norm_num) (by norm_num)).1 (by decide),
    (h.2 2 (by norm_num) (by norm_num)).2 (by decide)⟩

/-- C9: determinism/idempotence. Two runs of the same request, each into
an empty output directory, in which the external world behaves the same
(same existence facts, same exit code, same diagnostic stderr, same files
written by the tool — the captured stdout may even differ) produce
identical output-directory contents and identical recovered page counts. -/
theorem claim9_deterministic (pe md tf : Bool) (ec : Nat)
    (out1 out2 err : String) (pf : List String) :
    runFiles ⟨pe, md, tf, ec, out1, err, [], pf⟩ =
      runFiles ⟨pe, md, tf, ec, out2, err, [], pf⟩ ∧
    runCount ⟨pe, md, tf, ec, out1, err, [], pf⟩ =
      runCount ⟨pe, md, tf, ec, out2, err, [], pf⟩ := by
  cases pe <;> cases md <;> cases tf <;>
    by_cases he : ec = 0 <;> by_cases hn : num_pages err = 0 <;>
    simp [runFiles, runCount, convert_pdf_to_ppms, he, hn]
